import Mathlib

/-!
Shallow embedding of the OpenTelemetry ingestion handler of
`backend/otel/otel.go` (package `otel` of the highlight repository), together
with theorems settling the frozen claims about it.

Modelling conventions:
* OTLP attribute values (`map[string]any` produced by `Attributes().AsRaw()`)
  are a tagged union `AttrValue`; the Go code only distinguishes strings from
  everything else (via type assertions), so one representative of each
  non-string shape (`vBool`, `vInt`) suffices.
* Attribute maps are association lists with `List.lookup` (Go map lookup);
  a missing key is `none`, matching Go's nil-valued `any` for a missing key.
* A Go panic (the unchecked type assertions `p.(string)` in
  `setHighlightAttributes`) is modelled as `Option.none` propagated through
  the traversal: a panicking handler produces no classified output.
* External collaborators that are not part of this file's source
  (`model2.FromVerboseID`, `formatStructureStackTrace`, `json.Marshal`) are
  parameters of the environment `Env`; nothing is assumed about them.
* Machine integers: `strconv.ParseInt(s, 10, 32)` is `parseInt32 : String →
  Option Int` with the explicit int32 range check; Go's `uint32(i)` conversion
  is `goUInt32 : Int → Nat`, reduction modulo `2 ^ 32`.
-/

namespace HighlightOtel

/-- Tagged union for a decoded OTLP attribute value (`any` after `AsRaw()`).
The handler only ever distinguishes the string case from the rest. -/
inductive AttrValue where
  | vStr (s : String)
  | vBool (b : Bool)
  | vInt (n : Int)
deriving Repr, DecidableEq

/-- A decoded attribute map (`map[string]any`), as an association list. -/
abbrev AttrMap := List (String × AttrValue)

instance {ε α : Type} [DecidableEq ε] [DecidableEq α] : DecidableEq (Except ε α) := fun a b =>
  match a, b with
  | Except.error e, Except.error e' =>
    if h : e = e' then Decidable.isTrue (by rw [h])
    else Decidable.isFalse (by intro hc; cases hc; exact h rfl)
  | Except.error _, Except.ok _ => Decidable.isFalse (by intro hc; cases hc)
  | Except.ok _, Except.error _ => Decidable.isFalse (by intro hc; cases hc)
  | Except.ok v, Except.ok v' =>
    if h : v = v' then Decidable.isTrue (by rw [h])
    else Decidable.isFalse (by intro hc; cases hc; exact h rfl)

/-! Reserved attribute keys and event names consumed by the handler.  The
string values model the constants of the `highlight-go` SDK and the OTel
semantic conventions referenced by `otel.go`; only their distinctness
matters to the control flow. -/

/-- Constant `highlight.ProjectIDAttribute`. -/
def ProjectIDAttribute : String := "highlight.project_id"

/-- Constant `highlight.SessionIDAttribute`. -/
def SessionIDAttribute : String := "highlight.session_id"

/-- Constant `highlight.RequestIDAttribute`. -/
def RequestIDAttribute : String := "highlight.trace_id"

/-- Constant `highlight.ErrorURLKey`. -/
def ErrorURLKey : String := "highlight.error_url"

/-- Constant `semconv.ExceptionEventName`. -/
def ExceptionEventName : String := "exception"

/-- Constant `semconv.ExceptionTypeKey`. -/
def ExceptionTypeKey : String := "exception.type"

/-- Constant `semconv.ExceptionMessageKey`. -/
def ExceptionMessageKey : String := "exception.message"

/-- Constant `semconv.ExceptionStacktraceKey`. -/
def ExceptionStacktraceKey : String := "exception.stacktrace"

/-- Constant `hlog.LogName`. -/
def LogName : String := "log"

/-- Constant `hlog.LogSeverityKey`. -/
def LogSeverityKey : String := "log.severity"

/-- Constant `hlog.LogMessageKey`. -/
def LogMessageKey : String := "log.message"

/-- Constant `semconv.TelemetrySDKLanguageKey`. -/
def TelemetrySDKLanguageKey : String := "telemetry.sdk.language"

/-- Constant `semconv.ServiceNameKey`. -/
def ServiceNameKey : String := "service.name"

/-- `castString(v, fallback)` of `otel.go`: the comma-ok string cast
(`s, _ := v.(string)`), returning `fallback` when the cast yields the empty
string (missing key, non-string value, or empty string value). -/
def castString (v : Option AttrValue) (fallback : String) : String :=
  match v with
  | some (AttrValue.vStr s) => if s = "" then fallback else s
  | _ => fallback

/-- The three correlation identifiers threaded through the traversal
(the local variables `projectID, sessionID, requestID` of the handlers). -/
structure Ids where
  projectID : String
  sessionID : String
  requestID : String
deriving Repr, DecidableEq

/-- The all-empty identifier triple (`var projectID, sessionID, requestID
string`, Go zero values). -/
def idsEmpty : Ids := ⟨"", "", ""⟩

/-- One reserved-key update step of `setHighlightAttributes`:
`if p, ok := attrs[key]; ok { if p.(string) != "" { *cur = p.(string) } }`.
The type assertion `p.(string)` is unchecked, so a present non-string value
panics; the panic is modelled as `none`. -/
def overrideId (attrs : AttrMap) (key : String) (cur : String) : Option String :=
  match List.lookup key attrs with
  | none => some cur
  | some (AttrValue.vStr s) => some (if s = "" then cur else s)
  | some _ => none

/-- `setHighlightAttributes(attrs, &projectID, &sessionID, &requestID)` of
`otel.go`: updates the three identifiers in place from the three reserved
keys; `none` models the Go panic on a present non-string value. -/
def setHighlightAttributes (attrs : AttrMap) (ids : Ids) : Option Ids :=
  match overrideId attrs ProjectIDAttribute ids.projectID with
  | none => none
  | some p =>
    match overrideId attrs SessionIDAttribute ids.sessionID with
    | none => none
    | some s =>
      match overrideId attrs RequestIDAttribute ids.requestID with
      | none => none
      | some r => some ⟨p, s, r⟩

/-- Repeated application of `setHighlightAttributes` along an ordered sequence
of attribute maps (outermost scope first) — the attribute-resolution policy
the handlers implement by calling `setHighlightAttributes` at each scope. -/
def resolve (ids : Ids) : List AttrMap → Option Ids
  | [] => some ids
  | m :: ms =>
    match setHighlightAttributes m ids with
    | none => none
    | some ids' => resolve ids' ms

/-- Decimal digit run parse: `some n` when the character list is a non-empty
run of ASCII digits with value `n` (the digit phase of `strconv.ParseInt`
with base 10, which rejects empty strings and any non-digit). -/
def digitsToNat : List Char → Option Nat
  | [] => none
  | cs =>
    if cs.all (fun c => c.isDigit) then
      some (cs.foldl (fun a c => a * 10 + (c.toNat - 48)) 0)
    else none

/-- `strconv.ParseInt(projectID, 10, 32)`: optional sign, decimal digits,
result required to fit in int32; `none` is a parse or range error. -/
def parseInt32 (str : String) : Option Int :=
  let cs := str.toList
  let signed : Int × List Char :=
    match cs with
    | '-' :: rest => (-1, rest)
    | '+' :: rest => (1, rest)
    | rest => (1, rest)
  match digitsToNat signed.2 with
  | none => none
  | some n =>
    let v : Int := signed.1 * (n : Int)
    if -(2 ^ 31) ≤ v ∧ v ≤ 2 ^ 31 - 1 then some v else none

/-- Go's `uint32(i)` conversion of a (possibly negative) integer: reduction
modulo `2 ^ 32`. -/
def goUInt32 (i : Int) : Nat := (i % (2 ^ 32 : Int)).toNat

/-- `projectToInt(projectID)` of `otel.go`: decimal parse first, then
`model2.FromVerboseID` (an external collaborator, passed in as `fvid`),
`none` when both fail (`invalid project id`). -/
def projectToInt (fvid : String → Option Int) (projectID : String) : Option Int :=
  match parseInt32 projectID with
  | some i => some i
  | none => fvid projectID

/-- `strings.ToLower`, modelled as character-wise ASCII lowering (the level
names compared against are plain ASCII). -/
def goToLower (s : String) : String :=
  ⟨s.data.map Char.toLower⟩

/-- `logrus.ParseLevel` with the error discarded, as used at
`lvl, _ := log.ParseLevel(logSev)`: the known level names map to their
numeric levels, anything else to `0` (the zero `logrus.Level`).  Case
folding is modelled with ASCII `Char.toLower`. -/
def ParseLevel (s : String) : Nat :=
  let l := goToLower s
  if l = "panic" then 0
  else if l = "fatal" then 1
  else if l = "error" then 2
  else if l = "warn" ∨ l = "warning" then 3
  else if l = "info" then 4
  else if l = "debug" then 5
  else if l = "trace" then 6
  else 0

/-- The level names `logrus.ParseLevel` recognises. -/
def logrusLevelNames : List String :=
  ["panic", "fatal", "error", "warn", "warning", "info", "debug", "trace"]

/-! ## Decoded batch shapes (the parts of the OTLP structures the handler
reads).  Timestamps are opaque `Nat` instants. -/

/-- A span event (`ptrace.SpanEvent`): name, timestamp, attributes. -/
structure SpanEvent where
  name : String
  timestamp : Nat
  attrs : AttrMap
deriving Repr, DecidableEq

/-- A span (`ptrace.Span`): the fields `otel.go` reads. -/
structure OtelSpan where
  traceID : String
  spanID : String
  attrs : AttrMap
  events : List SpanEvent
deriving Repr, DecidableEq

/-- A scope-spans group (`ptrace.ScopeSpans`): scope name and spans. -/
structure ScopeSpans where
  scopeName : String
  spans : List OtelSpan
deriving Repr, DecidableEq

/-- A resource-spans group (`ptrace.ResourceSpans`). -/
structure ResourceSpans where
  resourceAttrs : AttrMap
  scopeSpans : List ScopeSpans
deriving Repr, DecidableEq

/-- A log record (`plog.LogRecord`): the fields `HandleLog` reads.  `body` is
an attribute value; `Body().Str()` yields `""` for a non-string body. -/
structure LogRecord where
  traceID : String
  spanID : String
  timestamp : Nat
  severityText : String
  severityNumber : Int
  body : AttrValue
  attrs : AttrMap
deriving Repr, DecidableEq

/-- A scope-logs group (`plog.ScopeLogs`). -/
structure ScopeLogs where
  logRecords : List LogRecord
deriving Repr, DecidableEq

/-- A resource-logs group (`plog.ResourceLogs`). -/
structure ResourceLogs where
  resourceAttrs : AttrMap
  scopeLogs : List ScopeLogs
deriving Repr, DecidableEq

/-- `Body().Str()` of a `plog` value: the string if the body is a string,
otherwise the empty string. -/
def valueStr (v : AttrValue) : String :=
  match v with
  | AttrValue.vStr s => s
  | _ => ""

/-! ## Output record shapes -/

/-- `model.BackendErrorObjectInput`, with both pointer-typed identifier
fields (`SessionSecureID`, `RequestID`) replaced by the string value they
dereference to once the handler submits (Go field `Type` is `Type_`). -/
structure BackendErrorObjectInput where
  SessionSecureID : String
  RequestID : String
  TraceID : String
  SpanID : String
  Event : String
  Type_ : String
  Source : String
  StackTrace : String
  Timestamp : Nat
  Payload : String
  URL : String
deriving Repr, DecidableEq

/-- The fields of a `BackendErrorObjectInput` that are fixed at
classification time.  In `otel.go` the remaining two fields are pointers
`&sessionID`/`&requestID` into the per-resource running variables, so their
observed values are the final per-resource identifiers (`finishErr`). -/
structure PreError where
  TraceID : String
  SpanID : String
  Event : String
  Type_ : String
  Source : String
  StackTrace : String
  Timestamp : Nat
  Payload : String
  URL : String
deriving Repr, DecidableEq

/-- Dereference the two aliased pointer fields of an error record at the
final per-resource identifier values. -/
def finishErr (fin : Ids) (p : PreError) : BackendErrorObjectInput :=
  { SessionSecureID := fin.sessionID
    RequestID := fin.requestID
    TraceID := p.TraceID
    SpanID := p.SpanID
    Event := p.Event
    Type_ := p.Type_
    Source := p.Source
    StackTrace := p.StackTrace
    Timestamp := p.Timestamp
    Payload := p.Payload
    URL := p.URL }

/-- `clickhouse.LogRow`, the fields `otel.go` fills. -/
structure LogRow where
  Timestamp : Nat
  TraceId : String
  SpanId : String
  SeverityText : String
  SeverityNumber : Int
  ServiceName : String
  Body : String
  ResourceAttributes : List (String × String)
  LogAttributes : List (String × String)
  ProjectId : Nat
  SecureSessionId : String
deriving Repr, DecidableEq

/-- External collaborators of the handler that live outside `otel.go`:
`model2.FromVerboseID` (opaque verbose-id decode), the repository's
`formatStructureStackTrace`, and `json.Marshal` of a span attribute map
(total here: it cannot fail on decoded OTLP values). -/
structure Env where
  fromVerboseID : String → Option Int
  formatStructureStackTrace : String → String
  marshalAttrs : AttrMap → String

/-- The string-valued projection of an attribute map used for
`ResourceAttributes` (and for `LogAttributes` in `HandleLog`): keep exactly
the pairs whose `castString` image is non-empty. -/
def stringAttrMap (attrs : AttrMap) : List (String × String) :=
  attrs.filterMap (fun kv =>
    match kv.2 with
    | AttrValue.vStr s => if s = "" then none else some (kv.1, s)
    | _ => none)

/-- The `LogAttributes` map of the trace classifier's log-event branch:
as `stringAttrMap`, additionally skipping the two reserved log keys. -/
def logEventAttrMap (attrs : AttrMap) : List (String × String) :=
  attrs.filterMap (fun kv =>
    match kv.2 with
    | AttrValue.vStr s =>
      if s = "" ∨ kv.1 = LogMessageKey ∨ kv.1 = LogSeverityKey then none
      else some (kv.1, s)
    | _ => none)

/-- Which error bucket a record is appended to. -/
inductive BucketKey where
  | session (k : String)
  | project (k : String)
deriving Repr, DecidableEq

/-- The routing decision for a classified error record (lines 164–178):
session bucket when the session id is non-empty, else project bucket when
the project id is non-empty, else dropped. -/
def routeErr (ids : Ids) : Option BucketKey :=
  if ids.sessionID ≠ "" then some (BucketKey.session ids.sessionID)
  else if ids.projectID ≠ "" then some (BucketKey.project ids.projectID)
  else none

/-- The exception branch of `HandleTrace` (lines 132–163): extract the four
event attributes, drop on empty stack trace or on both type and message
empty (the Go diagnostics are the `Except.error` payloads), otherwise build
the record fields fixed at classification time. -/
def classifyException (env : Env) (sdkLanguage serviceName scopeName : String)
    (span : OtelSpan) (payload : String) (ev : SpanEvent) :
    Except String PreError :=
  let excType := castString (List.lookup ExceptionTypeKey ev.attrs) ""
  let excMessage := castString (List.lookup ExceptionMessageKey ev.attrs) ""
  let stackTrace := castString (List.lookup ExceptionStacktraceKey ev.attrs) ""
  let errorUrl := castString (List.lookup ErrorURLKey ev.attrs) ""
  if stackTrace = "" then
    Except.error "otel received exception with no stacktrace"
  else if excType = "" ∧ excMessage = "" then
    Except.error "otel received exception with no type and no message"
  else
    Except.ok
      { TraceID := span.traceID
        SpanID := span.spanID
        Event := castString (some (AttrValue.vStr excMessage)) ""
        Type_ := castString (some (AttrValue.vStr excType)) "BACKEND"
        Source := String.intercalate "-"
          (List.filter (fun s => s ≠ "")
            [sdkLanguage, serviceName, scopeName])
        StackTrace := env.formatStructureStackTrace stackTrace
        Timestamp := ev.timestamp
        Payload := payload
        URL := errorUrl }

/-- The log-event branch of `HandleTrace` (lines 179–219): severity text
with fallback `"unknown"`, drop on empty message or invalid project id,
otherwise the constructed `LogRow` (bucketing happens in `processEvent`). -/
def classifyLogEvent (env : Env) (serviceName : String)
    (resourceAttrs : AttrMap) (span : OtelSpan) (ids : Ids)
    (ev : SpanEvent) : Except String LogRow :=
  let logSev := castString (List.lookup LogSeverityKey ev.attrs) "unknown"
  let logMessage := castString (List.lookup LogMessageKey ev.attrs) ""
  if logMessage = "" then
    Except.error "otel received log with no message"
  else
    match projectToInt env.fromVerboseID ids.projectID with
    | none => Except.error "otel span log got invalid project id"
    | some pid =>
      Except.ok
        { Timestamp := ev.timestamp
          TraceId := span.traceID
          SpanId := span.spanID
          SeverityText := logSev
          SeverityNumber := (ParseLevel logSev : Int)
          ServiceName := serviceName
          Body := logMessage
          ResourceAttributes := stringAttrMap resourceAttrs
          LogAttributes := logEventAttrMap ev.attrs
          ProjectId := goUInt32 pid
          SecureSessionId := ids.sessionID }

/-! ## Trace traversal.

`HandleTrace` walks resource → scope → span → event, mutating one
per-resource identifier triple in place and appending classified records to
the grouping maps as it goes.  The embedding threads the triple explicitly
and collects, per resource, the classified records in traversal order
together with their classification-time bucket keys (`TraceAcc`); because
every error record aliases the per-resource `sessionID`/`requestID`
variables through pointers, the aliased fields are filled in with the final
per-resource identifiers (`finishErr`) once the resource's traversal is
complete — which is exactly the value those pointers dereference to when the
handler later submits. -/

/-- The per-resource traversal state of `HandleTrace`. -/
structure TraceAcc where
  ids : Ids
  errs : List (BucketKey × PreError)
  logs : List (String × LogRow)
  diags : List String
deriving Repr, DecidableEq

/-- The body of the event loop of `HandleTrace` (lines 128–231) for one
event: merge the event attributes into the identifier resolution, then
classify by event name.  `none` models the Go panic of
`setHighlightAttributes` on a non-string reserved-key value. -/
def processEvent (env : Env) (sdkLanguage serviceName scopeName : String)
    (resourceAttrs : AttrMap) (span : OtelSpan) (payload : String)
    (acc : TraceAcc) (ev : SpanEvent) : Option TraceAcc :=
  match setHighlightAttributes ev.attrs acc.ids with
  | none => none
  | some ids =>
    if ev.name = ExceptionEventName then
      match classifyException env sdkLanguage serviceName scopeName span payload ev with
      | Except.error d => some { acc with ids := ids, diags := acc.diags ++ [d] }
      | Except.ok pre =>
        match routeErr ids with
        | some bk => some { acc with ids := ids, errs := acc.errs ++ [(bk, pre)] }
        | none =>
          some { acc with
                 ids := ids
                 diags := acc.diags ++ ["otel error got no session and no project"] }
    else if ev.name = LogName then
      match classifyLogEvent env serviceName resourceAttrs span ids ev with
      | Except.error d => some { acc with ids := ids, diags := acc.diags ++ [d] }
      | Except.ok row =>
        if ids.projectID ≠ "" then
          some { acc with ids := ids, logs := acc.logs ++ [(ids.projectID, row)] }
        else
          some { acc with
                 ids := ids
                 diags := acc.diags ++ ["otel span log got no project"] }
    else
      some { acc with ids := ids }

/-- Fold of `processEvent` over a span's events. -/
def processEvents (env : Env) (sdkLanguage serviceName scopeName : String)
    (resourceAttrs : AttrMap) (span : OtelSpan) (payload : String)
    (acc : TraceAcc) : List SpanEvent → Option TraceAcc
  | [] => some acc
  | ev :: evs =>
    match processEvent env sdkLanguage serviceName scopeName resourceAttrs span payload acc ev with
    | none => none
    | some acc' =>
      processEvents env sdkLanguage serviceName scopeName resourceAttrs span payload acc' evs

/-- The body of the span loop of `HandleTrace` (lines 118–232): serialize the
span attributes to the payload string, merge them into the identifier
resolution, then process the span's events. -/
def processSpan (env : Env) (sdkLanguage serviceName scopeName : String)
    (resourceAttrs : AttrMap) (acc : TraceAcc) (span : OtelSpan) : Option TraceAcc :=
  let payload := env.marshalAttrs span.attrs
  match setHighlightAttributes span.attrs acc.ids with
  | none => none
  | some ids =>
    processEvents env sdkLanguage serviceName scopeName resourceAttrs span payload
      { acc with ids := ids } span.events

/-- Fold of `processSpan` over a scope group's spans. -/
def processSpans (env : Env) (sdkLanguage serviceName scopeName : String)
    (resourceAttrs : AttrMap) (acc : TraceAcc) : List OtelSpan → Option TraceAcc
  | [] => some acc
  | sp :: sps =>
    match processSpan env sdkLanguage serviceName scopeName resourceAttrs acc sp with
    | none => none
    | some acc' => processSpans env sdkLanguage serviceName scopeName resourceAttrs acc' sps

/-- Fold over a resource's scope groups (lines 115–233). -/
def processScopes (env : Env) (sdkLanguage serviceName : String)
    (resourceAttrs : AttrMap) (acc : TraceAcc) : List ScopeSpans → Option TraceAcc
  | [] => some acc
  | ss :: sss =>
    match processSpans env sdkLanguage serviceName ss.scopeName resourceAttrs acc ss.spans with
    | none => none
    | some acc' => processScopes env sdkLanguage serviceName resourceAttrs acc' sss

/-- The body of the resource loop of `HandleTrace` (lines 107–234): fresh
identifier triple, resource-level attribute extraction and identifier
seeding, then the nested traversal.  The returned state holds the final
per-resource identifiers together with the records classified in traversal
order. -/
def processResource (env : Env) (rs : ResourceSpans) : Option TraceAcc :=
  let sdkLanguage := castString (List.lookup TelemetrySDKLanguageKey rs.resourceAttrs) ""
  let serviceName := castString (List.lookup ServiceNameKey rs.resourceAttrs) ""
  match setHighlightAttributes rs.resourceAttrs idsEmpty with
  | none => none
  | some ids =>
    processScopes env sdkLanguage serviceName rs.resourceAttrs
      ⟨ids, [], [], []⟩ rs.scopeSpans

/-! ## Grouping buckets.

Go's `map[string][]T` with `append` is modelled as an insertion-ordered
association list of per-key lists: `mmAppend` is exactly
`if _, ok := m[k]; !ok { m[k] = []T{} }; m[k] = append(m[k], v)` and `mmGet`
is `m[k]` (empty for a missing key). -/

/-- Append a value to the per-key list of a string-keyed multimap. -/
def mmAppend {α : Type} (m : List (String × List α)) (k : String) (v : α) :
    List (String × List α) :=
  match m with
  | [] => [(k, [v])]
  | (k', vs) :: rest =>
    if k' = k then (k', vs ++ [v]) :: rest else (k', vs) :: mmAppend rest k v

/-- Per-key list of a string-keyed multimap (`m[k]`, empty when absent). -/
def mmGet {α : Type} (m : List (String × List α)) (k : String) : List α :=
  match m with
  | [] => []
  | (k', vs) :: rest => if k' = k then vs else mmGet rest k

/-- The three grouping maps of `HandleTrace` plus the emitted diagnostics. -/
structure TraceOut where
  traceErrors : List (String × List BackendErrorObjectInput)
  projectErrors : List (String × List BackendErrorObjectInput)
  projectLogs : List (String × List LogRow)
  diags : List String
deriving Repr, DecidableEq

/-- Session-bucket insertions contributed by one resource: the classified
error records routed to `traceErrors`, with their aliased identifier fields
dereferenced at the final per-resource identifiers. -/
def sessionPairs (fin : Ids) (errs : List (BucketKey × PreError)) :
    List (String × BackendErrorObjectInput) :=
  errs.filterMap (fun bp =>
    match bp.1 with
    | BucketKey.session k => some (k, finishErr fin bp.2)
    | BucketKey.project _ => none)

/-- Project-bucket insertions contributed by one resource (`projectErrors`). -/
def projectPairs (fin : Ids) (errs : List (BucketKey × PreError)) :
    List (String × BackendErrorObjectInput) :=
  errs.filterMap (fun bp =>
    match bp.1 with
    | BucketKey.session _ => none
    | BucketKey.project k => some (k, finishErr fin bp.2))

/-- Insert one resource's classified records into the grouping maps, in
traversal order. -/
def stepResource (env : Env) (out : TraceOut) (rs : ResourceSpans) : Option TraceOut :=
  match processResource env rs with
  | none => none
  | some acc =>
    some
      { traceErrors :=
          (sessionPairs acc.ids acc.errs).foldl (fun m p => mmAppend m p.1 p.2)
            out.traceErrors
        projectErrors :=
          (projectPairs acc.ids acc.errs).foldl (fun m p => mmAppend m p.1 p.2)
            out.projectErrors
        projectLogs :=
          acc.logs.foldl (fun m p => mmAppend m p.1 p.2) out.projectLogs
        diags := out.diags ++ acc.diags }

/-- Fold of `stepResource` over the batch's resources. -/
def stepResources (env : Env) (out : TraceOut) : List ResourceSpans → Option TraceOut
  | [] => some out
  | rs :: rss =>
    match stepResource env out rs with
    | none => none
    | some out' => stepResources env out' rss

/-- The classification phase of `HandleTrace` (lines 101–234): decode
already done, grouping maps filled, nothing submitted yet. -/
def HandleTraceClassify (env : Env) (batch : List ResourceSpans) : Option TraceOut :=
  stepResources env ⟨[], [], [], []⟩ batch

/-! ## Log traversal (`HandleLog`, lines 310–370).

Nothing here aliases the running identifiers (all `LogRow` fields are
values), so the records can be inserted into the bucket as they are
classified. -/

/-- The record construction of `HandleLog` (lines 326–357): invalid project
id drops the record; there is no message-body check and the log-attribute
map is the plain `stringAttrMap` (no reserved-key exclusion), both unlike
the trace classifier's log-event branch. -/
def classifyLogRecord (env : Env) (serviceName : String)
    (resourceAttrs : AttrMap) (ids : Ids) (rec : LogRecord) :
    Except String LogRow :=
  match projectToInt env.fromVerboseID ids.projectID with
  | none => Except.error "otel log got invalid project id"
  | some pid =>
    Except.ok
      { Timestamp := rec.timestamp
        TraceId := rec.traceID
        SpanId := rec.spanID
        SeverityText := rec.severityText
        SeverityNumber := rec.severityNumber
        ServiceName := serviceName
        Body := valueStr rec.body
        ResourceAttributes := stringAttrMap resourceAttrs
        LogAttributes := stringAttrMap rec.attrs
        ProjectId := goUInt32 pid
        SecureSessionId := ids.sessionID }

/-- The per-resource traversal state of `HandleLog`. -/
structure LogAcc where
  ids : Ids
  logs : List (String × LogRow)
  diags : List String
deriving Repr, DecidableEq

/-- The body of the record loop of `HandleLog` (lines 322–368): merge the
record's attributes into the identifier resolution, classify, bucket by
project id or drop. -/
def processLogRecord (env : Env) (serviceName : String)
    (resourceAttrs : AttrMap) (acc : LogAcc) (rec : LogRecord) : Option LogAcc :=
  match setHighlightAttributes rec.attrs acc.ids with
  | none => none
  | some ids =>
    match classifyLogRecord env serviceName resourceAttrs ids rec with
    | Except.error d => some { acc with ids := ids, diags := acc.diags ++ [d] }
    | Except.ok row =>
      if ids.projectID ≠ "" then
        some { acc with ids := ids, logs := acc.logs ++ [(ids.projectID, row)] }
      else
        some { acc with
               ids := ids
               diags := acc.diags ++ ["otel log got no project"] }

/-- Fold of `processLogRecord` over a scope group's records. -/
def processLogRecords (env : Env) (serviceName : String)
    (resourceAttrs : AttrMap) (acc : LogAcc) : List LogRecord → Option LogAcc
  | [] => some acc
  | rec :: recs =>
    match processLogRecord env serviceName resourceAttrs acc rec with
    | none => none
    | some acc' => processLogRecords env serviceName resourceAttrs acc' recs

/-- Fold over a resource's scope-log groups (lines 320–369). -/
def processLogScopes (env : Env) (serviceName : String)
    (resourceAttrs : AttrMap) (acc : LogAcc) : List ScopeLogs → Option LogAcc
  | [] => some acc
  | sl :: sls =>
    match processLogRecords env serviceName resourceAttrs acc sl.logRecords with
    | none => none
    | some acc' => processLogScopes env serviceName resourceAttrs acc' sls

/-- The body of the resource loop of `HandleLog` (lines 313–370). -/
def processResourceLogs (env : Env) (rl : ResourceLogs) : Option LogAcc :=
  let serviceName := castString (List.lookup ServiceNameKey rl.resourceAttrs) ""
  match setHighlightAttributes rl.resourceAttrs idsEmpty with
  | none => none
  | some ids =>
    processLogScopes env serviceName rl.resourceAttrs ⟨ids, [], []⟩ rl.scopeLogs

/-- The grouping map of `HandleLog` plus the emitted diagnostics. -/
structure LogOut where
  projectLogs : List (String × List LogRow)
  diags : List String
deriving Repr, DecidableEq

/-- Insert one resource's classified log rows into the grouping map. -/
def stepResourceLogs (env : Env) (out : LogOut) (rl : ResourceLogs) : Option LogOut :=
  match processResourceLogs env rl with
  | none => none
  | some acc =>
    some
      { projectLogs := acc.logs.foldl (fun m p => mmAppend m p.1 p.2) out.projectLogs
        diags := out.diags ++ acc.diags }

/-- Fold of `stepResourceLogs` over the batch's resources. -/
def stepResourcesLogs (env : Env) (out : LogOut) : List ResourceLogs → Option LogOut
  | [] => some out
  | rl :: rls =>
    match stepResourceLogs env out rl with
    | none => none
    | some out' => stepResourcesLogs env out' rls

/-- The classification phase of `HandleLog`. -/
def HandleLogClassify (env : Env) (batch : List ResourceLogs) : Option LogOut :=
  stepResourcesLogs env ⟨[], []⟩ batch

/-! ## Submission (`HandleTrace` lines 236–277, `HandleLog` lines 372–385).

One Kafka message per bucket key; Go iterates its maps in unspecified order,
here the first-insertion key order of the association lists.  The sink is a
predicate `ok : QueueMessage → Bool` (the message constructor identifies
which of the two queues receives it); `submitAll` returns the messages
submitted successfully, stopping at the first failure exactly as the Go
loops `return` on the first `Submit` error. -/

/-- A `kafkaqueue.Message` as filled by the handlers. -/
inductive QueueMessage where
  | pushBackendSession (sessionSecureID : String) (errors : List BackendErrorObjectInput)
  | pushBackendProject (projectVerboseID : String) (errors : List BackendErrorObjectInput)
  | pushLogs (partitionKey : String) (logRows : List LogRow)
deriving Repr, DecidableEq

/-- The messages `HandleTrace` submits, in bucket order: session-keyed
errors, then project-keyed errors, then project logs. -/
def traceMessages (out : TraceOut) : List QueueMessage :=
  out.traceErrors.map (fun p => QueueMessage.pushBackendSession p.1 p.2)
    ++ out.projectErrors.map (fun p => QueueMessage.pushBackendProject p.1 p.2)
    ++ out.projectLogs.map (fun p => QueueMessage.pushLogs p.1 p.2)

/-- The messages `HandleLog` submits. -/
def logMessages (out : LogOut) : List QueueMessage :=
  out.projectLogs.map (fun p => QueueMessage.pushLogs p.1 p.2)

/-- Submit messages in order until the first failure: returns the
successfully submitted ones and whether all succeeded. -/
def submitAll (ok : QueueMessage → Bool) : List QueueMessage → List QueueMessage × Bool
  | [] => ([], true)
  | m :: rest =>
    if ok m then
      let r := submitAll ok rest
      (m :: r.1, r.2)
    else ([], false)

/-- `HandleTrace` after decode: classify, submit, and answer with the list of
submitted messages and the HTTP status (`200` on success, `503` on the first
submission failure); `none` models the classification panic. -/
def HandleTrace (env : Env) (ok : QueueMessage → Bool) (batch : List ResourceSpans) :
    Option (List QueueMessage × Nat) :=
  match HandleTraceClassify env batch with
  | none => none
  | some out =>
    let r := submitAll ok (traceMessages out)
    some (r.1, if r.2 then 200 else 503)

/-- `HandleLog` after decode: classify, submit, and answer as `HandleTrace`. -/
def HandleLog (env : Env) (ok : QueueMessage → Bool) (batch : List ResourceLogs) :
    Option (List QueueMessage × Nat) :=
  match HandleLogClassify env batch with
  | none => none
  | some out =>
    let r := submitAll ok (logMessages out)
    some (r.1, if r.2 then 200 else 503)

/-! ## Spec-side definitions and concrete inputs used by the theorems -/

/-- Modelled from the spec (§3, §4.2): re-derivation of a single leaf
record's correlation identifiers from its own ancestor chain, starting at
the enclosing resource's baseline and accumulating overrides down to the
record itself.  Used only to compare the spec's per-record derivation with
what the code computes. -/
def specAncestorIds (chain : List AttrMap) : Option Ids :=
  resolve idsEmpty chain

/-- All attribute maps of one trace resource in traversal order: the
resource map, then per span its own map followed by its events' maps. -/
def allTraceMaps (rs : ResourceSpans) : List AttrMap :=
  rs.resourceAttrs ::
    (rs.scopeSpans.flatMap (fun ss =>
      ss.spans.flatMap (fun sp => sp.attrs :: sp.events.map (fun ev => ev.attrs))))

/-- A concrete environment for counterexamples and witnesses: the verbose-id
decoder rejects everything, stack-trace formatting and attribute
serialization are trivial. -/
def env0 : Env :=
  { fromVerboseID := fun _ => none
    formatStructureStackTrace := fun s => s
    marshalAttrs := fun _ => "" }

/-! ## Claims -/

/-- Claim C3 (status: code_bug).  The claim states that resolving the three
reserved identifier keys never fails and that a non-string value under a
reserved key is treated as absent.  The code instead evaluates the
unchecked type assertion `p.(string)` on the present value, which panics on
a non-string: on the attribute map `{highlight.project_id ↦ true}` the
embedded `setHighlightAttributes` reaches the panic marker `none` instead
of returning the identifiers unchanged. -/
theorem C3_setHighlightAttributes_panics_on_nonstring :
    setHighlightAttributes [(ProjectIDAttribute, AttrValue.vBool true)] idsEmpty = none :=
  rfl

/-- Claim C10: the project id normalizer accepts any string that parses as a
32-bit signed integer (so also negative decimals such as `"-1"`), and the
signed result lands in the record's unsigned 32-bit `ProjectId` field
reduced modulo `2 ^ 32`, with `"-1"` yielding `4294967295`. -/
theorem C10_negative_project_id :
    (∀ (s : String) (i : Int) (f : String → Option Int),
        parseInt32 s = some i → projectToInt f s = some i) ∧
    parseInt32 "-1" = some (-1) ∧
    goUInt32 (-1) = 4294967295 ∧
    (∀ i : Int, goUInt32 i < 4294967296) ∧
    (∀ (env : Env) (svc : String) (rattrs : AttrMap) (ids : Ids)
        (rec : LogRecord) (row : LogRow),
        classifyLogRecord env svc rattrs ids rec = Except.ok row →
        ∃ i, projectToInt env.fromVerboseID ids.projectID = some i ∧
          row.ProjectId = goUInt32 i) := by
  refine ⟨?_, by decide, by decide, ?_, ?_⟩
  · intro s i f h
    simp [projectToInt, h]
  · intro i
    have h1 : 0 ≤ i % (4294967296 : Int) := Int.emod_nonneg i (by decide)
    have h2 : i % (4294967296 : Int) < 4294967296 := Int.emod_lt_of_pos i (by decide)
    simp only [goUInt32]
    omega
  · intro env svc rattrs ids rec row h
    cases hp : projectToInt env.fromVerboseID ids.projectID with
    | none => simp [classifyLogRecord, hp] at h
    | some pid =>
      refine ⟨pid, rfl, ?_⟩
      simp [classifyLogRecord, hp] at h
      rw [← h]

/-- Witness for C10: the theorem applied at the concrete input `"-1"` with
the rejecting verbose-id decoder. -/
theorem C10_witness :
    projectToInt (fun _ => none) "-1" = some (-1) :=
  C10_negative_project_id.1 "-1" (-1) (fun _ => none) (by decide)

/-- Every entry of `stringAttrMap` has a non-empty value. -/
theorem mem_stringAttrMap {attrs : AttrMap} {kv : String × String}
    (h : kv ∈ stringAttrMap attrs) : kv.2 ≠ "" := by
  unfold stringAttrMap at h
  rw [List.mem_filterMap] at h
  obtain ⟨a, _, ha⟩ := h
  cases hv : a.2 with
  | vStr s =>
    simp only [hv] at ha
    by_cases hse : s = ""
    · rw [if_pos hse] at ha; cases ha
    · rw [if_neg hse] at ha; cases ha; exact hse
  | vBool b => simp only [hv] at ha; exact Option.noConfusion ha
  | vInt n => simp only [hv] at ha; exact Option.noConfusion ha

/-- Every entry of `logEventAttrMap` has a non-empty value and is not one of
the two reserved log keys. -/
theorem mem_logEventAttrMap {attrs : AttrMap} {kv : String × String}
    (h : kv ∈ logEventAttrMap attrs) :
    kv.2 ≠ "" ∧ kv.1 ≠ LogSeverityKey ∧ kv.1 ≠ LogMessageKey := by
  unfold logEventAttrMap at h
  rw [List.mem_filterMap] at h
  obtain ⟨a, _, ha⟩ := h
  cases hv : a.2 with
  | vStr s =>
    simp only [hv] at ha
    by_cases hc : s = "" ∨ a.1 = LogMessageKey ∨ a.1 = LogSeverityKey
    · rw [if_pos hc] at ha; cases ha
    · rw [if_neg hc] at ha
      cases ha
      push_neg at hc
      exact ⟨hc.1, hc.2.2, hc.2.1⟩
  | vBool b => simp only [hv] at ha; exact Option.noConfusion ha
  | vInt n => simp only [hv] at ha; exact Option.noConfusion ha

/-- A log record with empty string body whose attributes carry a project id
and the reserved severity key. -/
def logRecC2 : LogRecord :=
  { traceID := "t", spanID := "s", timestamp := 0, severityText := "info",
    severityNumber := 9, body := AttrValue.vStr "",
    attrs := [(ProjectIDAttribute, AttrValue.vStr "1"),
              (LogSeverityKey, AttrValue.vStr "x")] }

/-- A one-record log batch around `logRecC2`. -/
def logBatchC2 : List ResourceLogs :=
  [{ resourceAttrs := [], scopeLogs := [{ logRecords := [logRecC2] }] }]

/-- The log row `HandleLog` builds for `logRecC2`. -/
def rowC2 : LogRow :=
  { Timestamp := 0, TraceId := "t", SpanId := "s", SeverityText := "info",
    SeverityNumber := 9, ServiceName := "", Body := "",
    ResourceAttributes := [],
    LogAttributes := [(ProjectIDAttribute, "1"), (LogSeverityKey, "x")],
    ProjectId := 1, SecureSessionId := "" }

/-- Counterexample to C2: the claim quantifies over both classifiers, but
the log-kind classifier (`HandleLog`) constructs and buckets a log row whose
message body is the empty string, and its log-attribute map retains the
reserved severity key — there is no body-emptiness check and no reserved-key
exclusion on that path. -/
theorem C2_counterexample :
    HandleLogClassify env0 logBatchC2 =
      some { projectLogs := [("1", [rowC2])], diags := [] } ∧
    rowC2.Body = "" ∧ (LogSeverityKey, "x") ∈ rowC2.LogAttributes := by
  refine ⟨by decide, rfl, by decide⟩

/-- Claim C2 as amended.  Trace classifier log-event branch: a log row is
constructed only when the message is non-empty and the project id
normalizes, and its log-attribute map has only non-empty string values and
excludes the two reserved keys; on a classification failure the event is
dropped with one diagnostic and the traversal state keeps its records.  Log
classifier: a log row is constructed only when the project id normalizes
(the body may be empty), its log-attribute map has only non-empty string
values (reserved keys are not excluded there), and a failure likewise drops
just that record with one diagnostic. -/
theorem C2_amended_record_construction :
    (∀ (env : Env) (svc : String) (rattrs : AttrMap) (span : OtelSpan) (ids : Ids)
        (ev : SpanEvent) (row : LogRow),
      classifyLogEvent env svc rattrs span ids ev = Except.ok row →
      row.Body ≠ "" ∧
      (∃ i, projectToInt env.fromVerboseID ids.projectID = some i ∧
        row.ProjectId = goUInt32 i) ∧
      (∀ kv ∈ row.LogAttributes,
        kv.2 ≠ "" ∧ kv.1 ≠ LogSeverityKey ∧ kv.1 ≠ LogMessageKey)) ∧
    (∀ (env : Env) (sdk svc scope : String) (rattrs : AttrMap) (span : OtelSpan)
        (payload : String) (ev : SpanEvent) (acc acc' : TraceAcc) (d : String),
      ev.name = LogName →
      classifyLogEvent env svc rattrs span
          ((setHighlightAttributes ev.attrs acc.ids).getD idsEmpty) ev =
        Except.error d →
      processEvent env sdk svc scope rattrs span payload acc ev = some acc' →
      acc'.errs = acc.errs ∧ acc'.logs = acc.logs ∧ acc'.diags = acc.diags ++ [d]) ∧
    (∀ (env : Env) (svc : String) (rattrs : AttrMap) (ids : Ids)
        (rec : LogRecord) (row : LogRow),
      classifyLogRecord env svc rattrs ids rec = Except.ok row →
      (∃ i, projectToInt env.fromVerboseID ids.projectID = some i ∧
        row.ProjectId = goUInt32 i) ∧
      (∀ kv ∈ row.LogAttributes, kv.2 ≠ "")) ∧
    (∀ (env : Env) (svc : String) (rattrs : AttrMap) (acc acc' : LogAcc)
        (rec : LogRecord) (d : String),
      classifyLogRecord env svc rattrs
          ((setHighlightAttributes rec.attrs acc.ids).getD idsEmpty) rec =
        Except.error d →
      processLogRecord env svc rattrs acc rec = some acc' →
      acc'.logs = acc.logs ∧ acc'.diags = acc.diags ++ [d]) := by
  refine ⟨?_, ?_, ?_, ?_⟩
  · intro env svc rattrs span ids ev row h
    simp only [classifyLogEvent] at h
    by_cases hmsg : castString (List.lookup LogMessageKey ev.attrs) "" = ""
    · rw [if_pos hmsg] at h; cases h
    · rw [if_neg hmsg] at h
      cases hp : projectToInt env.fromVerboseID ids.projectID with
      | none => simp only [hp] at h; exact Except.noConfusion h
      | some pid =>
        simp only [hp] at h
        cases h
        exact ⟨hmsg, ⟨pid, rfl, rfl⟩, fun kv hkv => mem_logEventAttrMap hkv⟩
  · intro env sdk svc scope rattrs span payload ev acc acc' d hname hd hp
    unfold processEvent at hp
    cases hids : setHighlightAttributes ev.attrs acc.ids with
    | none => rw [hids] at hp; cases hp
    | some ids =>
      rw [hids] at hd
      simp only [Option.getD] at hd
      simp only [hids] at hp
      rw [hname] at hp
      rw [if_neg (by decide), if_pos rfl, hd] at hp
      simp only [] at hp
      cases hp
      exact ⟨rfl, rfl, rfl⟩
  · intro env svc rattrs ids rec row h
    unfold classifyLogRecord at h
    cases hp : projectToInt env.fromVerboseID ids.projectID with
    | none => simp only [hp] at h; exact Except.noConfusion h
    | some pid =>
      simp only [hp] at h
      cases h
      exact ⟨⟨pid, rfl, rfl⟩, fun kv hkv => mem_stringAttrMap hkv⟩
  · intro env svc rattrs acc acc' rec d hd hp
    unfold processLogRecord at hp
    cases hids : setHighlightAttributes rec.attrs acc.ids with
    | none => rw [hids] at hp; cases hp
    | some ids =>
      rw [hids] at hd
      simp only [Option.getD] at hd
      simp only [hids] at hp
      rw [hd] at hp
      simp only [] at hp
      cases hp
      exact ⟨rfl, rfl⟩

/-- Witness for C2: the amended theorem's log-classifier part applied at the
concrete record `logRecC2`, whose row carries project id 1 and whose
log-attribute values are all non-empty. -/
theorem C2_witness :
    (∃ i, projectToInt env0.fromVerboseID (Ids.mk "1" "" "").projectID = some i ∧
      rowC2.ProjectId = goUInt32 i) ∧
    (∀ kv ∈ rowC2.LogAttributes, kv.2 ≠ "") :=
  C2_amended_record_construction.2.2.1 env0 "" [] ⟨"1", "", ""⟩ logRecC2 rowC2
    (by decide)

/-- A minimal span used by concrete witnesses. -/
def spanW : OtelSpan := { traceID := "t", spanID := "s", attrs := [], events := [] }

/-- An empty trace traversal state used by concrete witnesses. -/
def accW : TraceAcc := ⟨idsEmpty, [], [], []⟩

/-- Resolving along an extended sequence resolves the prefix first, then
applies the extra map. -/
theorem resolve_append (ids : Ids) (ms : List AttrMap) (m : AttrMap) :
    resolve ids (ms ++ [m]) =
      match resolve ids ms with
      | none => none
      | some ids' => setHighlightAttributes m ids' := by
  induction ms generalizing ids with
  | nil =>
    simp only [List.nil_append, resolve]
    cases setHighlightAttributes m ids <;> rfl
  | cons m0 ms ih =>
    simp only [List.cons_append, resolve]
    cases setHighlightAttributes m0 ids <;> simp [ih]

/-- A successful `setHighlightAttributes` call acts independently on the
three identifier fields through `overrideId`. -/
theorem setHighlightAttributes_fields {m : AttrMap} {ids ids' : Ids}
    (h : setHighlightAttributes m ids = some ids') :
    overrideId m ProjectIDAttribute ids.projectID = some ids'.projectID ∧
    overrideId m SessionIDAttribute ids.sessionID = some ids'.sessionID ∧
    overrideId m RequestIDAttribute ids.requestID = some ids'.requestID := by
  unfold setHighlightAttributes at h
  cases hp : overrideId m ProjectIDAttribute ids.projectID with
  | none => rw [hp] at h; cases h
  | some p =>
    simp only [hp] at h
    cases hs : overrideId m SessionIDAttribute ids.sessionID with
    | none => rw [hs] at h; cases h
    | some s =>
      simp only [hs] at h
      cases hr : overrideId m RequestIDAttribute ids.requestID with
      | none => rw [hr] at h; cases h
      | some r =>
        simp only [hr] at h
        cases h
        exact ⟨rfl, rfl, rfl⟩

/-- An absent reserved key, or one holding the empty string, leaves the
running identifier unchanged. -/
theorem overrideId_skip {m : AttrMap} {key cur res : String}
    (h : overrideId m key cur = some res)
    (hk : List.lookup key m = none ∨ List.lookup key m = some (AttrValue.vStr "")) :
    res = cur := by
  unfold overrideId at h
  rcases hk with hk | hk <;> rw [hk] at h <;> simp at h <;> exact h.symm

/-- A changed running identifier can only come from a non-empty string
value under the reserved key. -/
theorem overrideId_change {m : AttrMap} {key cur res : String}
    (h : overrideId m key cur = some res) (hne : res ≠ cur) :
    ∃ s, s ≠ "" ∧ List.lookup key m = some (AttrValue.vStr s) ∧ res = s := by
  unfold overrideId at h
  cases hk : List.lookup key m with
  | none => rw [hk] at h; simp at h; exact absurd h.symm hne
  | some v =>
    rw [hk] at h
    cases v with
    | vStr s =>
      by_cases hse : s = ""
      · subst hse; simp at h; exact absurd h.symm hne
      · simp [hse] at h; exact ⟨s, hse, rfl, h.symm⟩
    | vBool b => cases h
    | vInt n => cases h

/-- Claim C7: along any ordered sequence of attribute maps whose resolution
succeeds, each resolved identifier is changed by one more map only through a
non-empty string value under its reserved key; an absent key or an
empty-string value at the deeper scope never overwrites the previously
resolved value. -/
theorem C7_empty_override_never_overwrites :
    ∀ (ms : List AttrMap) (m : AttrMap) (ids ids' : Ids),
    resolve idsEmpty ms = some ids →
    resolve idsEmpty (ms ++ [m]) = some ids' →
    (((List.lookup ProjectIDAttribute m = none ∨
        List.lookup ProjectIDAttribute m = some (AttrValue.vStr "")) →
          ids'.projectID = ids.projectID) ∧
      (ids'.projectID ≠ ids.projectID →
        ∃ s, s ≠ "" ∧ List.lookup ProjectIDAttribute m = some (AttrValue.vStr s) ∧
          ids'.projectID = s)) ∧
    (((List.lookup SessionIDAttribute m = none ∨
        List.lookup SessionIDAttribute m = some (AttrValue.vStr "")) →
          ids'.sessionID = ids.sessionID) ∧
      (ids'.sessionID ≠ ids.sessionID →
        ∃ s, s ≠ "" ∧ List.lookup SessionIDAttribute m = some (AttrValue.vStr s) ∧
          ids'.sessionID = s)) ∧
    (((List.lookup RequestIDAttribute m = none ∨
        List.lookup RequestIDAttribute m = some (AttrValue.vStr "")) →
          ids'.requestID = ids.requestID) ∧
      (ids'.requestID ≠ ids.requestID →
        ∃ s, s ≠ "" ∧ List.lookup RequestIDAttribute m = some (AttrValue.vStr s) ∧
          ids'.requestID = s)) := by
  intro ms m ids ids' h1 h2
  rw [resolve_append] at h2
  simp only [h1] at h2
  obtain ⟨hp, hs, hr⟩ := setHighlightAttributes_fields h2
  exact ⟨⟨fun hk => overrideId_skip hp hk, fun hne => overrideId_change hp hne⟩,
    ⟨fun hk => overrideId_skip hs hk, fun hne => overrideId_change hs hne⟩,
    ⟨fun hk => overrideId_skip hr hk, fun hne => overrideId_change hr hne⟩⟩

/-- A map setting the session identifier to `"A"`. -/
def mapSessionA : AttrMap := [(SessionIDAttribute, AttrValue.vStr "A")]

/-- A map overriding the session identifier with the empty string. -/
def mapSessionEmpty : AttrMap := [(SessionIDAttribute, AttrValue.vStr "")]

/-- Witness for C7: a session identifier set to `"A"` at the outer scope and
overridden with the empty string at the deeper scope resolves to `"A"`; the
theorem applied at that concrete sequence. -/
theorem C7_witness :
    resolve idsEmpty [mapSessionA, mapSessionEmpty] = some ⟨"", "A", ""⟩ ∧
    (Ids.mk "" "A" "").sessionID = (Ids.mk "" "A" "").sessionID :=
  ⟨by decide,
    ((C7_empty_override_never_overwrites [mapSessionA] mapSessionEmpty
        ⟨"", "A", ""⟩ ⟨"", "A", ""⟩ (by decide) (by decide)).2.1).1
      (Or.inr (by decide))⟩

/-- Claim C9: an exception event with non-empty stack trace, empty type and
non-empty message yields an error record whose type field is the hard-coded
`"BACKEND"` (via `castString(excType, "BACKEND")`), not the empty string. -/
theorem C9_default_backend_type :
    ∀ (env : Env) (sdk svc scope : String) (span : OtelSpan) (payload : String)
      (ev : SpanEvent),
    castString (List.lookup ExceptionTypeKey ev.attrs) "" = "" →
    castString (List.lookup ExceptionMessageKey ev.attrs) "" ≠ "" →
    castString (List.lookup ExceptionStacktraceKey ev.attrs) "" ≠ "" →
    ∃ pre, classifyException env sdk svc scope span payload ev = Except.ok pre ∧
      pre.Type_ = "BACKEND" ∧
      pre.Event = castString (List.lookup ExceptionMessageKey ev.attrs) "" := by
  intro env sdk svc scope span payload ev ht hm hs
  simp only [classifyException, ht]
  rw [if_neg hs, if_neg (by simp [hm])]
  refine ⟨_, rfl, by simp [castString], ?_⟩
  revert hm
  generalize castString (List.lookup ExceptionMessageKey ev.attrs) "" = x
  intro hm
  simp [castString, hm]

/-- Witness for C9: the theorem applied at a concrete exception event with
stack trace `"st"`, no type, message `"boom"`. -/
theorem C9_witness :
    ∃ pre,
      classifyException env0 "go" "svc" "scope" spanW "{}"
          { name := "exception", timestamp := 0,
            attrs := [(ExceptionMessageKey, AttrValue.vStr "boom"),
                      (ExceptionStacktraceKey, AttrValue.vStr "st")] } =
        Except.ok pre ∧
      pre.Type_ = "BACKEND" ∧
      pre.Event = castString (List.lookup ExceptionMessageKey
        [(ExceptionMessageKey, AttrValue.vStr "boom"),
         (ExceptionStacktraceKey, AttrValue.vStr "st")]) "" :=
  C9_default_backend_type env0 "go" "svc" "scope" spanW "{}"
    { name := "exception", timestamp := 0,
      attrs := [(ExceptionMessageKey, AttrValue.vStr "boom"),
                (ExceptionStacktraceKey, AttrValue.vStr "st")] }
    (by decide) (by decide) (by decide)

/-- Claim C8: severity normalization in the trace classifier's log-event
branch is total — a missing severity attribute defaults to the text
`"unknown"`, and every severity text outside the known logrus level names
(including `"unknown"` itself) maps to the fixed numeric level `0`; the
record is never dropped because of its severity. -/
theorem C8_severity_never_fails :
    (∀ s : String, goToLower s ∉ logrusLevelNames → ParseLevel s = 0) ∧
    ParseLevel "unknown" = 0 ∧
    (∀ (env : Env) (svc : String) (rattrs : AttrMap) (span : OtelSpan) (ids : Ids)
        (ev : SpanEvent) (row : LogRow),
        List.lookup LogSeverityKey ev.attrs = none →
        classifyLogEvent env svc rattrs span ids ev = Except.ok row →
        row.SeverityText = "unknown" ∧ row.SeverityNumber = (0 : Int)) := by
  refine ⟨?_, by decide, ?_⟩
  · intro s h
    simp only [logrusLevelNames, List.mem_cons, List.not_mem_nil, or_false,
      not_or] at h
    obtain ⟨h1, h2, h3, h4, h5, h6, h7, h8⟩ := h
    simp [ParseLevel, h1, h2, h3, h4, h5, h6, h7, h8]
  · intro env svc rattrs span ids ev row hnone hok
    unfold classifyLogEvent at hok
    rw [hnone] at hok
    simp only [castString] at hok
    split at hok
    · cases hok
    · split at hok
      · cases hok
      · cases hok
        refine ⟨rfl, ?_⟩
        show ((ParseLevel "unknown" : Nat) : Int) = 0
        decide

/-- Witness for C8: the theorem applied at the severity text `"whatever"`
and at a concrete log event without severity attribute. -/
theorem C8_witness :
    ParseLevel "whatever" = 0 :=
  C8_severity_never_fails.1 "whatever" (by decide)

/-- Claim C4: the exception branch constructs an error record exactly when
the extracted stack trace is non-empty and the extracted type or message is
non-empty; otherwise it emits a diagnostic and the traversal state keeps
its classified records, so processing of the batch continues. -/
theorem C4_exception_record_iff :
    ∀ (env : Env) (sdk svc scope : String) (rattrs : AttrMap) (span : OtelSpan)
      (payload : String) (ev : SpanEvent) (acc acc' : TraceAcc),
    ev.name = ExceptionEventName →
    ((∃ pre, classifyException env sdk svc scope span payload ev = Except.ok pre) ↔
      (castString (List.lookup ExceptionStacktraceKey ev.attrs) "" ≠ "" ∧
       (castString (List.lookup ExceptionTypeKey ev.attrs) "" ≠ "" ∨
        castString (List.lookup ExceptionMessageKey ev.attrs) "" ≠ ""))) ∧
    (∀ d, classifyException env sdk svc scope span payload ev = Except.error d →
      processEvent env sdk svc scope rattrs span payload acc ev = some acc' →
      acc'.errs = acc.errs ∧ acc'.logs = acc.logs ∧
        acc'.diags = acc.diags ++ [d]) := by
  intro env sdk svc scope rattrs span payload ev acc acc' hname
  constructor
  · unfold classifyException
    by_cases hs : castString (List.lookup ExceptionStacktraceKey ev.attrs) "" = ""
    · rw [if_pos hs]
      simp [hs]
    · rw [if_neg hs]
      by_cases htm : castString (List.lookup ExceptionTypeKey ev.attrs) "" = "" ∧
          castString (List.lookup ExceptionMessageKey ev.attrs) "" = ""
      · rw [if_pos htm]
        simp [hs, htm.1, htm.2]
      · rw [if_neg htm]
        simp only [not_and_or] at htm
        simp [hs, htm]
  · intro d hd hp
    unfold processEvent at hp
    cases hids : setHighlightAttributes ev.attrs acc.ids with
    | none => rw [hids] at hp; cases hp
    | some ids =>
      simp only [hids] at hp
      rw [if_pos hname, hd] at hp
      simp only [] at hp
      cases hp
      exact ⟨rfl, rfl, rfl⟩

/-- A concrete exception event with a type but no stack trace. -/
def evW : SpanEvent :=
  { name := "exception", timestamp := 0,
    attrs := [(ExceptionTypeKey, AttrValue.vStr "T")] }

/-- The traversal state `processEvent` produces on `evW` from `accW`. -/
def accW' : TraceAcc :=
  { ids := idsEmpty, errs := [], logs := [],
    diags := ["otel received exception with no stacktrace"] }

/-- Witness for C4: the theorem applied at the concrete exception event
`evW` (empty stack trace), which is dropped with one diagnostic while the
traversal state keeps its records. -/
theorem C4_witness :
    accW'.errs = accW.errs ∧ accW'.logs = accW.logs ∧
      accW'.diags = accW.diags ++ ["otel received exception with no stacktrace"] :=
  (C4_exception_record_iff env0 "" "" "" [] spanW "" evW accW accW' (by decide)).2
    "otel received exception with no stacktrace" (by decide) (by decide)

/-- When the submission loop succeeds, every message was submitted. -/
theorem submitAll_true {ok : QueueMessage → Bool} :
    ∀ {msgs : List QueueMessage}, (submitAll ok msgs).2 = true →
    (submitAll ok msgs).1 = msgs ∧ ∀ m ∈ msgs, ok m = true := by
  intro msgs
  induction msgs with
  | nil => intro _; exact ⟨rfl, by simp⟩
  | cons m rest ih =>
    intro h
    by_cases hm : ok m = true
    · simp only [submitAll, hm, if_true] at h ⊢
      obtain ⟨h1, h2⟩ := ih h
      refine ⟨by rw [h1], ?_⟩
      intro m' hm'
      rcases List.mem_cons.mp hm' with hh | hh
      · rw [hh]; exact hm
      · exact h2 m' hh
    · rw [Bool.not_eq_true] at hm
      simp only [submitAll, hm, if_false] at h
      cases h

/-- When the submission loop fails, the submitted messages are exactly the
prefix before the first failing message, and nothing after it was tried. -/
theorem submitAll_false {ok : QueueMessage → Bool} :
    ∀ {msgs : List QueueMessage}, (submitAll ok msgs).2 = false →
    ∃ bad rest, msgs = (submitAll ok msgs).1 ++ bad :: rest ∧ ok bad = false ∧
      ∀ m ∈ (submitAll ok msgs).1, ok m = true := by
  intro msgs
  induction msgs with
  | nil => intro h; cases h
  | cons m rest ih =>
    intro h
    by_cases hm : ok m = true
    · simp only [submitAll, hm, if_true] at h ⊢
      obtain ⟨bad, rest', h1, h2, h3⟩ := ih h
      refine ⟨bad, rest', by rw [List.cons_append, ← h1], h2, ?_⟩
      intro m' hm'
      rcases List.mem_cons.mp hm' with hh | hh
      · rw [hh]; exact hm
      · exact h3 m' hh
    · rw [Bool.not_eq_true] at hm
      simp only [submitAll, hm, if_false]
      exact ⟨m, rest, rfl, hm, by simp⟩

/-- A failing submission run contains a failing message. -/
theorem submitAll_false_of_mem {ok : QueueMessage → Bool} :
    ∀ {msgs : List QueueMessage} {m : QueueMessage},
    m ∈ msgs → ok m = false → (submitAll ok msgs).2 = false := by
  intro msgs
  induction msgs with
  | nil => intro m hm; cases hm
  | cons m0 rest ih =>
    intro m hm hf
    by_cases hm0 : ok m0 = true
    · simp only [submitAll, hm0, if_true]
      rcases List.mem_cons.mp hm with hh | hh
      · rw [hh] at hf; rw [hm0] at hf; cases hf
      · exact ih hh hf
    · rw [Bool.not_eq_true] at hm0
      simp [submitAll, hm0]

/-- Claim C6: in both handlers, the routing phase stops at the first
submission failure and reports HTTP 503, the submitted messages are exactly
the prefix of successfully accepted bucket messages before the failing one
(not retried, not rolled back), and a fully successful run submits every
bucket message and reports HTTP 200. -/
theorem C6_first_failure_aborts :
    (∀ (env : Env) (ok : QueueMessage → Bool) (batch : List ResourceSpans)
        (out : TraceOut) (sent : List QueueMessage) (status : Nat),
      HandleTraceClassify env batch = some out →
      HandleTrace env ok batch = some (sent, status) →
      (status = 503 ↔ ∃ m ∈ traceMessages out, ok m = false) ∧
      (status = 503 → ∃ bad rest, traceMessages out = sent ++ bad :: rest ∧
        ok bad = false ∧ ∀ m ∈ sent, ok m = true) ∧
      (status = 200 → sent = traceMessages out ∧ ∀ m ∈ sent, ok m = true)) ∧
    (∀ (env : Env) (ok : QueueMessage → Bool) (batch : List ResourceLogs)
        (out : LogOut) (sent : List QueueMessage) (status : Nat),
      HandleLogClassify env batch = some out →
      HandleLog env ok batch = some (sent, status) →
      (status = 503 ↔ ∃ m ∈ logMessages out, ok m = false) ∧
      (status = 503 → ∃ bad rest, logMessages out = sent ++ bad :: rest ∧
        ok bad = false ∧ ∀ m ∈ sent, ok m = true) ∧
      (status = 200 → sent = logMessages out ∧ ∀ m ∈ sent, ok m = true)) := by
  constructor
  · intro env ok batch out sent status hcls h
    unfold HandleTrace at h
    rw [hcls] at h
    simp only [] at h
    obtain ⟨hsent, hstatus⟩ : (submitAll ok (traceMessages out)).1 = sent ∧
        (if (submitAll ok (traceMessages out)).2 then 200 else 503) = status := by
      cases h; exact ⟨rfl, rfl⟩
    cases hrun : (submitAll ok (traceMessages out)).2 with
    | true =>
      rw [hrun] at hstatus
      simp only [if_true] at hstatus
      obtain ⟨h1, h2⟩ := submitAll_true hrun
      refine ⟨?_, ?_, ?_⟩
      · rw [← hstatus]
        refine iff_of_false (by decide) ?_
        rintro ⟨m, hm, hf⟩
        rw [h2 m hm] at hf; cases hf
      · intro hc; rw [← hstatus] at hc; cases hc
      · intro _; rw [← hsent, h1]; exact ⟨rfl, h2⟩
    | false =>
      rw [hrun] at hstatus
      simp only [Bool.false_eq_true, if_false] at hstatus
      obtain ⟨bad, rest, h1, h2, h3⟩ := submitAll_false hrun
      refine ⟨?_, ?_, ?_⟩
      · rw [← hstatus]
        refine iff_of_true rfl ?_
        exact ⟨bad, by rw [h1]; simp, h2⟩
      · intro _
        exact ⟨bad, rest, by rw [← hsent]; exact h1, h2, by rw [← hsent]; exact h3⟩
      · intro hc; rw [← hstatus] at hc; cases hc
  · intro env ok batch out sent status hcls h
    unfold HandleLog at h
    rw [hcls] at h
    simp only [] at h
    obtain ⟨hsent, hstatus⟩ : (submitAll ok (logMessages out)).1 = sent ∧
        (if (submitAll ok (logMessages out)).2 then 200 else 503) = status := by
      cases h; exact ⟨rfl, rfl⟩
    cases hrun : (submitAll ok (logMessages out)).2 with
    | true =>
      rw [hrun] at hstatus
      simp only [if_true] at hstatus
      obtain ⟨h1, h2⟩ := submitAll_true hrun
      refine ⟨?_, ?_, ?_⟩
      · rw [← hstatus]
        refine iff_of_false (by decide) ?_
        rintro ⟨m, hm, hf⟩
        rw [h2 m hm] at hf; cases hf
      · intro hc; rw [← hstatus] at hc; cases hc
      · intro _; rw [← hsent, h1]; exact ⟨rfl, h2⟩
    | false =>
      rw [hrun] at hstatus
      simp only [Bool.false_eq_true, if_false] at hstatus
      obtain ⟨bad, rest, h1, h2, h3⟩ := submitAll_false hrun
      refine ⟨?_, ?_, ?_⟩
      · rw [← hstatus]
        refine iff_of_true rfl ?_
        exact ⟨bad, by rw [h1]; simp, h2⟩
      · intro _
        exact ⟨bad, rest, by rw [← hsent]; exact h1, h2, by rw [← hsent]; exact h3⟩
      · intro hc; rw [← hstatus] at hc; cases hc

/-- A concrete exception event with type `"T"` and stack trace `"st"`. -/
def evC6 : SpanEvent :=
  { name := "exception", timestamp := 0,
    attrs := [(ExceptionTypeKey, AttrValue.vStr "T"),
              (ExceptionStacktraceKey, AttrValue.vStr "st")] }

/-- A resource with session `"S1"` and one exception event. -/
def rsC6a : ResourceSpans :=
  { resourceAttrs := [(SessionIDAttribute, AttrValue.vStr "S1")]
    scopeSpans := [{ scopeName := ""
                     spans := [{ traceID := "t1", spanID := "s1", attrs := [],
                                 events := [evC6] }] }] }

/-- A resource with session `"S2"` and one exception event. -/
def rsC6b : ResourceSpans :=
  { resourceAttrs := [(SessionIDAttribute, AttrValue.vStr "S2")]
    scopeSpans := [{ scopeName := ""
                     spans := [{ traceID := "t2", spanID := "s2", attrs := [],
                                 events := [evC6] }] }] }

/-- A two-resource batch producing two session-keyed error buckets. -/
def batchC6 : List ResourceSpans := [rsC6a, rsC6b]

/-- The error record classified from `rsC6a`. -/
def recC6a : BackendErrorObjectInput :=
  { SessionSecureID := "S1", RequestID := "", TraceID := "t1", SpanID := "s1",
    Event := "", Type_ := "T", Source := "", StackTrace := "st",
    Timestamp := 0, Payload := "", URL := "" }

/-- The error record classified from `rsC6b`. -/
def recC6b : BackendErrorObjectInput :=
  { SessionSecureID := "S2", RequestID := "", TraceID := "t2", SpanID := "s2",
    Event := "", Type_ := "T", Source := "", StackTrace := "st",
    Timestamp := 0, Payload := "", URL := "" }

/-- The grouping output for `batchC6`. -/
def outC6 : TraceOut :=
  { traceErrors := [("S1", [recC6a]), ("S2", [recC6b])],
    projectErrors := [], projectLogs := [], diags := [] }

/-- A sink accepting only the `"S1"` session message. -/
def okC6 : QueueMessage → Bool := fun m =>
  match m with
  | QueueMessage.pushBackendSession k _ => decide (k = "S1")
  | _ => true

/-- The messages submitted before the failure under `okC6`. -/
def sentC6 : List QueueMessage :=
  [QueueMessage.pushBackendSession "S1" [recC6a]]

/-- Witness for C6: the theorem applied at the concrete two-bucket batch
whose second submission fails — the handler answers 503, having submitted
exactly the first bucket's message. -/
theorem C6_witness :
    ∃ bad rest, traceMessages outC6 = sentC6 ++ bad :: rest ∧ okC6 bad = false ∧
      ∀ m ∈ sentC6, okC6 m = true :=
  ((C6_first_failure_aborts.1 env0 okC6 batchC6 outC6 sentC6 503
      (by decide) (by decide)).2.1) rfl

/-! ## Identifier accumulation across one resource (claim C1). -/

/-- Resolving along a concatenated sequence resolves the first part, then
the second from where the first ended. -/
theorem resolve_concat (ids : Ids) (l1 l2 : List AttrMap) :
    resolve ids (l1 ++ l2) =
      match resolve ids l1 with
      | none => none
      | some i => resolve i l2 := by
  induction l1 generalizing ids with
  | nil => simp [resolve]
  | cons m l1 ih =>
    simp only [List.cons_append, resolve]
    cases setHighlightAttributes m ids <;> simp [ih]

/-- A successful `processEvent` updates the running identifiers exactly by
`setHighlightAttributes` on the event's attributes. -/
theorem processEvent_ids {env : Env} {sdk svc scope : String} {rattrs : AttrMap}
    {span : OtelSpan} {payload : String} {acc acc' : TraceAcc} {ev : SpanEvent}
    (h : processEvent env sdk svc scope rattrs span payload acc ev = some acc') :
    setHighlightAttributes ev.attrs acc.ids = some acc'.ids := by
  unfold processEvent at h
  cases hids : setHighlightAttributes ev.attrs acc.ids with
  | none => rw [hids] at h; cases h
  | some ids =>
    simp only [hids] at h
    split at h
    · split at h
      · cases h; rfl
      · split at h
        · cases h; rfl
        · cases h; rfl
    · split at h
      · split at h
        · cases h; rfl
        · split at h
          · cases h; rfl
          · cases h; rfl
      · cases h; rfl

/-- A successful event fold resolves the running identifiers along the
events' attribute maps. -/
theorem processEvents_ids {env : Env} {sdk svc scope : String} {rattrs : AttrMap}
    {span : OtelSpan} {payload : String} :
    ∀ {evs : List SpanEvent} {acc acc' : TraceAcc},
    processEvents env sdk svc scope rattrs span payload acc evs = some acc' →
    resolve acc.ids (evs.map (fun ev => ev.attrs)) = some acc'.ids := by
  intro evs
  induction evs with
  | nil => intro acc acc' h; cases h; rfl
  | cons ev evs ih =>
    intro acc acc' h
    unfold processEvents at h
    cases h1 : processEvent env sdk svc scope rattrs span payload acc ev with
    | none => rw [h1] at h; cases h
    | some acc1 =>
      simp only [h1] at h
      have h2 := processEvent_ids h1
      simp only [List.map_cons, resolve, h2]
      exact ih h

/-- A successful span step resolves the running identifiers along the span's
own attribute map followed by its events' maps. -/
theorem processSpan_ids {env : Env} {sdk svc scope : String} {rattrs : AttrMap}
    {acc acc' : TraceAcc} {span : OtelSpan}
    (h : processSpan env sdk svc scope rattrs acc span = some acc') :
    resolve acc.ids (span.attrs :: span.events.map (fun ev => ev.attrs)) =
      some acc'.ids := by
  unfold processSpan at h
  cases h1 : setHighlightAttributes span.attrs acc.ids with
  | none => rw [h1] at h; cases h
  | some ids =>
    simp only [h1] at h
    have h2 := processEvents_ids h
    simp only [resolve, h1]
    exact h2

/-- A successful span fold resolves the running identifiers along all the
spans' maps in traversal order. -/
theorem processSpans_ids {env : Env} {sdk svc scope : String} {rattrs : AttrMap} :
    ∀ {sps : List OtelSpan} {acc acc' : TraceAcc},
    processSpans env sdk svc scope rattrs acc sps = some acc' →
    resolve acc.ids
        (sps.flatMap (fun sp => sp.attrs :: sp.events.map (fun ev => ev.attrs))) =
      some acc'.ids := by
  intro sps
  induction sps with
  | nil => intro acc acc' h; cases h; rfl
  | cons sp sps ih =>
    intro acc acc' h
    unfold processSpans at h
    cases h1 : processSpan env sdk svc scope rattrs acc sp with
    | none => rw [h1] at h; cases h
    | some acc1 =>
      simp only [h1] at h
      have h2 := processSpan_ids h1
      rw [List.flatMap_cons, resolve_concat]
      simp only [h2]
      exact ih h

/-- A successful scope fold resolves the running identifiers along all the
scope groups' maps in traversal order. -/
theorem processScopes_ids {env : Env} {sdk svc : String} {rattrs : AttrMap} :
    ∀ {sss : List ScopeSpans} {acc acc' : TraceAcc},
    processScopes env sdk svc rattrs acc sss = some acc' →
    resolve acc.ids
        (sss.flatMap (fun ss =>
          ss.spans.flatMap (fun sp => sp.attrs :: sp.events.map (fun ev => ev.attrs)))) =
      some acc'.ids := by
  intro sss
  induction sss with
  | nil => intro acc acc' h; cases h; rfl
  | cons ss sss ih =>
    intro acc acc' h
    unfold processScopes at h
    cases h1 : processSpans env sdk svc ss.scopeName rattrs acc ss.spans with
    | none => rw [h1] at h; cases h
    | some acc1 =>
      simp only [h1] at h
      have h2 := processSpans_ids h1
      rw [List.flatMap_cons, resolve_concat]
      simp only [h2]
      exact ih h

/-- Claim C1 as amended.  Within one resource the three identifiers
accumulate forward across the entire traversal — the final per-resource
identifiers are the resolution of all the resource's attribute maps in
traversal order, not of any single record's ancestor chain — and every
error record of the resource carries those final identifiers in its
session/request fields (the Go records alias the running variables through
pointers), so a later override does reach earlier classified records.
Identifiers start fresh at each resource. -/
theorem C1_amended_forward_accumulation :
    ∀ (env : Env) (rs : ResourceSpans) (acc : TraceAcc),
    processResource env rs = some acc →
    resolve idsEmpty (allTraceMaps rs) = some acc.ids ∧
    ∀ p ∈ acc.errs, (finishErr acc.ids p.2).SessionSecureID = acc.ids.sessionID ∧
      (finishErr acc.ids p.2).RequestID = acc.ids.requestID := by
  intro env rs acc h
  unfold processResource at h
  cases h1 : setHighlightAttributes rs.resourceAttrs idsEmpty with
  | none => rw [h1] at h; cases h
  | some ids0 =>
    simp only [h1] at h
    constructor
    · unfold allTraceMaps
      simp only [resolve, h1]
      exact processScopes_ids h
    · intro p _
      exact ⟨rfl, rfl⟩

/-- The exception event of the C1 counterexample. -/
def evC1 : SpanEvent :=
  { name := "exception", timestamp := 0,
    attrs := [(ExceptionTypeKey, AttrValue.vStr "T"),
              (ExceptionStacktraceKey, AttrValue.vStr "st")] }

/-- First span: carries the exception event, no identifier attributes. -/
def spanC1a : OtelSpan :=
  { traceID := "t1", spanID := "sA", attrs := [], events := [evC1] }

/-- Second, later sibling span: overrides the session identifier. -/
def spanC1b : OtelSpan :=
  { traceID := "t1", spanID := "sB",
    attrs := [(SessionIDAttribute, AttrValue.vStr "S")], events := [] }

/-- The C1 resource: project id at resource level, exception in the first
span, session override only in the second span. -/
def rsC1 : ResourceSpans :=
  { resourceAttrs := [(ProjectIDAttribute, AttrValue.vStr "1")],
    scopeSpans := [{ scopeName := "sc", spans := [spanC1a, spanC1b] }] }

/-- The one-resource C1 batch. -/
def batchC1 : List ResourceSpans := [rsC1]

/-- The error record the handler produces for `evC1`. -/
def recC1 : BackendErrorObjectInput :=
  { SessionSecureID := "S", RequestID := "", TraceID := "t1", SpanID := "sA",
    Event := "", Type_ := "T", Source := "sc", StackTrace := "st",
    Timestamp := 0, Payload := "", URL := "" }

/-- Counterexample to C1: the record classified from the first span's
exception event (and bucketed under the project key, since the session id
was still empty at classification time) ends up carrying session id `"S"`
from the later sibling span `spanC1b`, while re-deriving the identifiers
from the record's own ancestor chain (resource, `spanC1a`, `evC1`) yields
an empty session id — so identifiers are not re-derived per ancestor chain,
and a later span's override does change an earlier, already-classified
record of the same batch. -/
theorem C1_counterexample :
    HandleTraceClassify env0 batchC1 =
      some { traceErrors := [], projectErrors := [("1", [recC1])],
             projectLogs := [], diags := [] } ∧
    specAncestorIds [rsC1.resourceAttrs, spanC1a.attrs, evC1.attrs] =
      some ⟨"1", "", ""⟩ ∧
    recC1.SessionSecureID = "S" ∧ ("S" : String) ≠ "" :=
  ⟨by decide, by decide, rfl, by decide⟩

/-- The classification-time fields of `recC1`. -/
def preC1 : PreError :=
  { TraceID := "t1", SpanID := "sA", Event := "", Type_ := "T", Source := "sc",
    StackTrace := "st", Timestamp := 0, Payload := "", URL := "" }

/-- Witness for C1: the amended theorem applied at the concrete resource
`rsC1` — the final identifiers are the resolution of all its maps. -/
theorem C1_witness :
    resolve idsEmpty (allTraceMaps rsC1) =
      some (TraceAcc.mk ⟨"1", "S", ""⟩ [(BucketKey.project "1", preC1)] [] []).ids :=
  (C1_amended_forward_accumulation env0 rsC1
      ⟨⟨"1", "S", ""⟩, [(BucketKey.project "1", preC1)], [], []⟩ (by decide)).1

/-! ## Bucket characterization (claim C5). -/

/-- `mmGet` after one `mmAppend`: appending under `k'` extends exactly the
per-key list of `k'`. -/
theorem mmGet_mmAppend {α : Type} (m : List (String × List α)) (k' : String)
    (v : α) (k : String) :
    mmGet (mmAppend m k' v) k =
      if k' = k then mmGet m k ++ [v] else mmGet m k := by
  induction m with
  | nil => by_cases h : k' = k <;> simp [mmAppend, mmGet, h]
  | cons p m ih =>
    obtain ⟨k0, vs⟩ := p
    by_cases h0 : k0 = k' <;> by_cases h1 : k0 = k <;> by_cases h2 : k' = k <;>
      simp_all [mmAppend, mmGet]

/-- `mmGet` after folding a list of insertions: the per-key list grows by
the key's projection of the inserted pairs, in insertion order. -/
theorem mmGet_foldl {α : Type} :
    ∀ (ps : List (String × α)) (m0 : List (String × List α)) (k : String),
    mmGet (ps.foldl (fun m p => mmAppend m p.1 p.2) m0) k =
      mmGet m0 k ++ ps.filterMap (fun p => if p.1 = k then some p.2 else none) := by
  intro ps
  induction ps with
  | nil => intro m0 k; simp
  | cons p ps ih =>
    intro m0 k
    simp only [List.foldl_cons, List.filterMap_cons]
    by_cases h : p.1 = k <;>
      simp [ih, mmGet_mmAppend, h, List.append_assoc]

/-- Selects the records routed to the session bucket of key `k`. -/
def sessionSel (k : String) (p : BucketKey × BackendErrorObjectInput) :
    Option BackendErrorObjectInput :=
  match p.1 with
  | BucketKey.session k' => if k' = k then some p.2 else none
  | BucketKey.project _ => none

/-- Selects the records routed to the project error bucket of key `k`. -/
def projectSel (k : String) (p : BucketKey × BackendErrorObjectInput) :
    Option BackendErrorObjectInput :=
  match p.1 with
  | BucketKey.session _ => none
  | BucketKey.project k' => if k' = k then some p.2 else none

/-- Selects the values stored under key `k`. -/
def keySel {α : Type} (k : String) (p : String × α) : Option α :=
  if p.1 = k then some p.2 else none

/-- The session-bucket insertions of a resource are the session projection
of its classified records. -/
theorem sessionPairs_filterMap (fin : Ids) (k : String) :
    ∀ errs : List (BucketKey × PreError),
    (sessionPairs fin errs).filterMap (fun p => if p.1 = k then some p.2 else none) =
      (errs.map (fun bp => (bp.1, finishErr fin bp.2))).filterMap (sessionSel k) := by
  intro errs
  induction errs with
  | nil => rfl
  | cons bp errs ih =>
    obtain ⟨bk, pre⟩ := bp
    cases bk with
    | session k' =>
      by_cases h : k' = k
      · simp [sessionPairs, sessionSel, List.filterMap_cons, h]
        simpa [sessionPairs, List.filterMap_map] using ih
      · simp [sessionPairs, sessionSel, List.filterMap_cons, h]
        simpa [sessionPairs, List.filterMap_map] using ih
    | project k' =>
      simp [sessionPairs, sessionSel, List.filterMap_cons]
      simpa [sessionPairs, List.filterMap_map] using ih

/-- The project-bucket insertions of a resource are the project projection
of its classified records. -/
theorem projectPairs_filterMap (fin : Ids) (k : String) :
    ∀ errs : List (BucketKey × PreError),
    (projectPairs fin errs).filterMap (fun p => if p.1 = k then some p.2 else none) =
      (errs.map (fun bp => (bp.1, finishErr fin bp.2))).filterMap (projectSel k) := by
  intro errs
  induction errs with
  | nil => rfl
  | cons bp errs ih =>
    obtain ⟨bk, pre⟩ := bp
    cases bk with
    | session k' =>
      simp [projectPairs, projectSel, List.filterMap_cons]
      simpa [projectPairs, List.filterMap_map] using ih
    | project k' =>
      by_cases h : k' = k
      · simp [projectPairs, projectSel, List.filterMap_cons, h]
        simpa [projectPairs, List.filterMap_map] using ih
      · simp [projectPairs, projectSel, List.filterMap_cons, h]
        simpa [projectPairs, List.filterMap_map] using ih

/-- The error records of a whole trace batch, flattened in batch traversal
order, keyed by their classification-time bucket, with the aliased
identifier fields dereferenced at the per-resource final identifiers. -/
def traceFlatErrs (env : Env) :
    List ResourceSpans → Option (List (BucketKey × BackendErrorObjectInput))
  | [] => some []
  | rs :: rss =>
    match processResource env rs with
    | none => none
    | some acc =>
      match traceFlatErrs env rss with
      | none => none
      | some ps => some (acc.errs.map (fun bp => (bp.1, finishErr acc.ids bp.2)) ++ ps)

/-- The log rows of a whole trace batch, flattened in batch traversal order
with their project bucket keys. -/
def traceFlatLogs (env : Env) : List ResourceSpans → Option (List (String × LogRow))
  | [] => some []
  | rs :: rss =>
    match processResource env rs with
    | none => none
    | some acc =>
      match traceFlatLogs env rss with
      | none => none
      | some ps => some (acc.logs ++ ps)

/-- Folding the batch's resources into the grouping maps yields, under every
key, the start map's list extended by the key's projection of the flattened
classified stream, in traversal order. -/
theorem stepResources_get (env : Env) :
    ∀ (rss : List ResourceSpans) (out0 out : TraceOut),
    stepResources env out0 rss = some out →
    ∃ eps lps, traceFlatErrs env rss = some eps ∧ traceFlatLogs env rss = some lps ∧
      (∀ k, mmGet out.traceErrors k =
        mmGet out0.traceErrors k ++ eps.filterMap (sessionSel k)) ∧
      (∀ k, mmGet out.projectErrors k =
        mmGet out0.projectErrors k ++ eps.filterMap (projectSel k)) ∧
      (∀ k, mmGet out.projectLogs k =
        mmGet out0.projectLogs k ++ lps.filterMap (keySel k)) := by
  intro rss
  induction rss with
  | nil =>
    intro out0 out h
    cases h
    exact ⟨[], [], rfl, rfl, fun k => by simp, fun k => by simp, fun k => by simp⟩
  | cons rs rss ih =>
    intro out0 out h
    unfold stepResources at h
    cases h1 : stepResource env out0 rs with
    | none => rw [h1] at h; cases h
    | some out1 =>
      simp only [h1] at h
      obtain ⟨eps, lps, he, hl, ht, hp, hg⟩ := ih out1 out h
      unfold stepResource at h1
      cases h2 : processResource env rs with
      | none => rw [h2] at h1; cases h1
      | some acc =>
        simp only [h2] at h1
        cases h1
        refine ⟨acc.errs.map (fun bp => (bp.1, finishErr acc.ids bp.2)) ++ eps,
                acc.logs ++ lps, ?_, ?_, ?_, ?_, ?_⟩
        · simp [traceFlatErrs, h2, he]
        · simp [traceFlatLogs, h2, hl]
        · intro k
          rw [ht k]
          simp only [List.filterMap_append]
          rw [mmGet_foldl, sessionPairs_filterMap, List.append_assoc]
        · intro k
          rw [hp k]
          simp only [List.filterMap_append]
          rw [mmGet_foldl, projectPairs_filterMap, List.append_assoc]
        · intro k
          rw [hg k]
          simp only [List.filterMap_append]
          rw [mmGet_foldl, List.append_assoc]
          rfl

/-- Claim C5: under every key, the session error bucket, project error
bucket and project log bucket of a classified trace batch contain exactly
the key's records of the flattened classified stream in batch traversal
order (grouping is by exact string equality on the resolved key and
insertion order is traversal order); the routing decision sends a record to
the session bucket when its session id is non-empty, else to the project
bucket when its project id is non-empty, else drops it; and no record
matches both error-bucket selectors, so a record lands in at most one
bucket. -/
theorem C5_bucket_characterization :
    (∀ (env : Env) (batch : List ResourceSpans) (out : TraceOut),
      HandleTraceClassify env batch = some out →
      ∃ eps lps, traceFlatErrs env batch = some eps ∧
        traceFlatLogs env batch = some lps ∧
        (∀ k, mmGet out.traceErrors k = eps.filterMap (sessionSel k)) ∧
        (∀ k, mmGet out.projectErrors k = eps.filterMap (projectSel k)) ∧
        (∀ k, mmGet out.projectLogs k = lps.filterMap (keySel k))) ∧
    (∀ ids : Ids,
      (ids.sessionID ≠ "" → routeErr ids = some (BucketKey.session ids.sessionID)) ∧
      (ids.sessionID = "" → ids.projectID ≠ "" →
        routeErr ids = some (BucketKey.project ids.projectID)) ∧
      (ids.sessionID = "" → ids.projectID = "" → routeErr ids = none)) ∧
    (∀ (k1 k2 : String) (p : BucketKey × BackendErrorObjectInput),
      sessionSel k1 p = none ∨ projectSel k2 p = none) := by
  refine ⟨?_, ?_, ?_⟩
  · intro env batch out h
    obtain ⟨eps, lps, he, hl, ht, hp, hg⟩ := stepResources_get env batch ⟨[], [], [], []⟩ out h
    exact ⟨eps, lps, he, hl,
      fun k => by have := ht k; simpa [mmGet] using this,
      fun k => by have := hp k; simpa [mmGet] using this,
      fun k => by have := hg k; simpa [mmGet] using this⟩
  · intro ids
    refine ⟨?_, ?_, ?_⟩
    · intro h; simp [routeErr, h]
    · intro h1 h2; simp [routeErr, h1, h2]
    · intro h1 h2; simp [routeErr, h1, h2]
  · intro k1 k2 p
    cases hb : p.1 with
    | session k => right; simp [projectSel, hb]
    | project k => left; simp [sessionSel, hb]

/-- Two exception events sharing the session id `"S"` in one resource. -/
def rsC5 : ResourceSpans :=
  { resourceAttrs := [(SessionIDAttribute, AttrValue.vStr "S")]
    scopeSpans := [{ scopeName := "sc"
                     spans := [{ traceID := "t", spanID := "s", attrs := [],
                                 events :=
                                   [{ name := "exception", timestamp := 0,
                                      attrs := [(ExceptionTypeKey, AttrValue.vStr "T1"),
                                                (ExceptionStacktraceKey, AttrValue.vStr "st")] },
                                    { name := "exception", timestamp := 1,
                                      attrs := [(ExceptionTypeKey, AttrValue.vStr "T2"),
                                                (ExceptionStacktraceKey, AttrValue.vStr "st")] }] }] }] }

/-- The one-resource C5 batch. -/
def batchC5 : List ResourceSpans := [rsC5]

/-- The first error record of `batchC5`. -/
def recC5a : BackendErrorObjectInput :=
  { SessionSecureID := "S", RequestID := "", TraceID := "t", SpanID := "s",
    Event := "", Type_ := "T1", Source := "sc", StackTrace := "st",
    Timestamp := 0, Payload := "", URL := "" }

/-- The second error record of `batchC5`. -/
def recC5b : BackendErrorObjectInput :=
  { SessionSecureID := "S", RequestID := "", TraceID := "t", SpanID := "s",
    Event := "", Type_ := "T2", Source := "sc", StackTrace := "st",
    Timestamp := 1, Payload := "", URL := "" }

/-- The grouping output for `batchC5`. -/
def outC5 : TraceOut :=
  { traceErrors := [("S", [recC5a, recC5b])],
    projectErrors := [], projectLogs := [], diags := [] }

/-- The flattened classified stream of `batchC5`. -/
def epsC5 : List (BucketKey × BackendErrorObjectInput) :=
  [(BucketKey.session "S", recC5a), (BucketKey.session "S", recC5b)]

/-- Witness for C5: the theorem applied at the concrete batch with two
exception events sharing session `"S"` — the session bucket holds both
records in traversal order. -/
theorem C5_witness : mmGet outC5.traceErrors "S" = [recC5a, recC5b] := by
  obtain ⟨eps, lps, he, hl, ht, hp, hg⟩ :=
    (C5_bucket_characterization.1 env0 batchC5 outC5 (by decide))
  have heq : eps = epsC5 := by
    have he' : traceFlatErrs env0 batchC5 = some epsC5 := by decide
    rw [he] at he'
    exact Option.some.inj he'
  rw [ht "S", heq]
  decide

end HighlightOtel
